import Mathlib

/-!
Verification of the document ingestion and processing pipeline of
medical-insighter (src/api/routes/upload.py, src/security.py,
src/encryption_service.py, src/storage_service.py, src/config.py).

Modelling conventions:
* Python byte strings and text strings that participate in encryption are
  modelled as UTF-8 code sequences (List Nat), so bytes.decode and
  str.encode are identities.  Filenames, paths and status words are kept
  as Lean Strings.
* The Fernet cipher and urlsafe base64 come from third-party libraries
  (cryptography, base64), not from this repository, so they enter the
  embedding as parameters (structure CryptoPrims); theorems assume only
  their documented contract (PrimsOK).  A concrete instance (refPrims)
  shows the contract is satisfiable and lets statements be evaluated.
* Floating point values (confidence, processing time) are only ever
  stored and compared for presence by the code under scrutiny, never
  computed with, so they are modelled by Nat.
-/

namespace MedInsight

/-- Byte sequences: Python bytes, and Python str via its UTF-8 codes. -/
abbrev Bytes := List Nat

/-- External cryptographic primitives used by src/security.py and
src/encryption_service.py: the Fernet authenticated cipher over a loaded
key, and urlsafe base64.  Both are library code outside the repository,
hence parameters of the embedding. -/
structure CryptoPrims where
  fernetEnc : Bytes → Bytes
  fernetDec : Bytes → Option Bytes
  b64enc : Bytes → Bytes
  b64dec : Bytes → Option Bytes

/-- encrypt_data (src/security.py lines 94-100): empty input is passed
through as the empty string; otherwise the Fernet token of the UTF-8
bytes is urlsafe-base64 encoded. -/
def encrypt_data (C : CryptoPrims) (data : Bytes) : Bytes :=
  if data = [] then []
  else C.b64enc (C.fernetEnc data)

/-- decrypt_data (src/security.py lines 103-113): empty input is passed
through; otherwise base64-decode then Fernet-decrypt, and on ANY failure
the bare except returns the empty string instead of raising. -/
def decrypt_data (C : CryptoPrims) (encrypted_data : Bytes) : Bytes :=
  if encrypted_data = [] then []
  else
    match C.b64dec encrypted_data with
    | none => []
    | some decoded =>
      match C.fernetDec decoded with
      | none => []
      | some decrypted => decrypted

/-- EncryptionService.encrypt_text (src/encryption_service.py lines
33-50): empty input passes through; otherwise Fernet then base64.  The
cipher call itself does not fail, so the ValueError branch is dead. -/
def EncryptionService.encrypt_text (C : CryptoPrims) (plaintext : Bytes) : Except String Bytes :=
  if plaintext = [] then Except.ok []
  else Except.ok (C.b64enc (C.fernetEnc plaintext))

/-- EncryptionService.decrypt_text (src/encryption_service.py lines
52-70): empty input passes through; otherwise base64-decode then
Fernet-decrypt, raising ValueError (modelled as Except.error) on any
failure. -/
def EncryptionService.decrypt_text (C : CryptoPrims) (encrypted_text : Bytes) : Except String Bytes :=
  if encrypted_text = [] then Except.ok []
  else
    match C.b64dec encrypted_text with
    | none => Except.error "Decryption failed"
    | some decoded =>
      match C.fernetDec decoded with
      | none => Except.error "Decryption failed"
      | some decrypted => Except.ok decrypted

/-- The byte transformation of encrypt_file (src/security.py lines
116-130): file bytes go to cipher_suite.encrypt directly, with no extra
base64 layer. -/
def encrypt_file_bytes (C : CryptoPrims) (file_data : Bytes) : Bytes :=
  C.fernetEnc file_data

/-- The byte transformation of decrypt_file (src/security.py lines
133-147): succeeds exactly when cipher_suite.decrypt accepts the blob. -/
def decrypt_file_bytes (C : CryptoPrims) (encrypted_data : Bytes) : Option Bytes :=
  C.fernetDec encrypted_data

/-- The documented contract of the external primitives: Fernet
round-trips under the loaded key, only ever decrypts genuine tokens,
detects any single-byte change to a token, and produces non-empty
tokens; base64 round-trips and maps non-empty input to non-empty
output. -/
structure PrimsOK (C : CryptoPrims) : Prop where
  fernet_roundtrip : ∀ b, C.fernetDec (C.fernetEnc b) = some b
  fernet_authentic : ∀ t b, C.fernetDec t = some b → t = C.fernetEnc b
  fernet_tamper : ∀ b i v, i < (C.fernetEnc b).length → v ≠ (C.fernetEnc b).getD i 0 →
    C.fernetDec ((C.fernetEnc b).set i v) = none
  fernet_ne_nil : ∀ b, C.fernetEnc b ≠ []
  b64_roundtrip : ∀ b, C.b64dec (C.b64enc b) = some b
  b64_ne_nil : ∀ b, b ≠ [] → C.b64enc b ≠ []

/-- A concrete instance of the primitive contract, used to evaluate the
theorems on concrete inputs: the token is the plaintext tagged with its
(unbounded) sum, which any single-element change perturbs, and the
base64 coding is the identity. -/
def refPrims : CryptoPrims where
  fernetEnc b := b.sum :: b
  fernetDec t :=
    match t with
    | [] => none
    | h :: rest => if h = rest.sum then some rest else none
  b64enc b := b
  b64dec b := some b

/-- The Document status state machine (app.models.report.ReportStatus). -/
inductive ReportStatus
  | pending
  | processing
  | completed
  | failed
  deriving DecidableEq

/-- The two dictionary shapes the code actually stores in
MedicalReport.metadata: an error payload on the FAILED path, and an
entity-type summary plus page count on the COMPLETED path. -/
inductive ReportMetadata
  | errorMsg (msg : String)
  | summary (entity_summary : List (String × Nat)) (pages : Nat)
  deriving DecidableEq

/-- A MedicalReport row (app.models.report.MedicalReport) with the fields
the upload routes and the background task read or write.  confidence
and processing time are floats in the source but are only stored and
tested for presence, so Nat stands in for their value. -/
structure MedicalReport where
  id : Nat
  filename : String
  file_path : String
  file_size : Nat
  file_type : String
  patient_id : Option Bytes := none
  patient_name : Option Bytes := none
  report_date : Option String := none
  status : ReportStatus
  ocr_text : Option Bytes := none
  confidence_score : Option Nat := none
  processing_time : Option Nat := none
  metadata : Option ReportMetadata := none
  uploaded_by : Nat
  is_encrypted : Bool
  deriving DecidableEq

/-- An ExtractedEntity row (app.models.report.ExtractedEntity) as
constructed at src/api/routes/upload.py lines 82-92. -/
structure ExtractedEntity where
  report_id : Nat
  entity_type : String
  entity_text : Bytes
  normalized_text : Bytes
  confidence : Nat
  context : Bytes
  deriving DecidableEq

/-- The persisted store: Document and Entity rows plus the identifier
the next inserted Document receives. -/
structure DB where
  reports : List MedicalReport
  entities : List ExtractedEntity
  next_id : Nat
  deriving DecidableEq

/-- db.query(MedicalReport).filter(MedicalReport.id == rid).first() -/
def findReport (db : DB) (rid : Nat) : Option MedicalReport :=
  db.reports.find? (fun r => r.id == rid)

/-- Update every report row matching the identifier (attribute
assignment through the session on the row with that id). -/
def DB.updateReport (db : DB) (rid : Nat) (f : MedicalReport → MedicalReport) : DB :=
  { db with reports := db.reports.map (fun r => if r.id = rid then f r else r) }

/-- db_session.add(extracted_entity) -/
def DB.addEntity (db : DB) (e : ExtractedEntity) : DB :=
  { db with entities := db.entities ++ [e] }

/-- The Entity rows belonging to one Document. -/
def DB.entitiesFor (db : DB) (rid : Nat) : List ExtractedEntity :=
  db.entities.filter (fun e => e.report_id == rid)

/-- The filesystem as a finite map from paths to byte contents. -/
abbrev FS := List (String × Bytes)

/-- open(p, "wb") followed by a full write. -/
def writeFile (fs : FS) (p : String) (c : Bytes) : FS :=
  (p, c) :: fs.filter (fun e => ¬ e.1 = p)

/-- os.unlink(p) -/
def removeFile (fs : FS) (p : String) : FS :=
  fs.filter (fun e => ¬ e.1 = p)

/-- The content at a path, if the file exists. -/
def readFile (fs : FS) (p : String) : Option Bytes :=
  (fs.find? (fun e => e.1 == p)).map (fun e => e.2)

/-- A background job handed to BackgroundTasks.add_task at
src/api/routes/upload.py lines 198-204: the new report id, the plaintext
staging path, and the file type. -/
structure BgTask where
  report_id : Nat
  file_path : String
  file_type : String
  deriving DecidableEq

/-- The state the synchronous upload routes act on: filesystem, database
and the queue of scheduled background jobs. -/
structure GState where
  fs : FS
  db : DB
  tasks : List BgTask
  deriving DecidableEq

/-- The file-storage settings of src/config.py (env-overridable; the
defaults are those of the Settings class). -/
structure Settings where
  UPLOAD_DIR : String := "./uploads"
  MAX_UPLOAD_SIZE : Nat := 10485760
  ALLOWED_EXTENSIONS : List String := ["pdf", "jpg", "jpeg", "png", "tiff"]

/-- Python str.lower on one character, as applied to ASCII filename
extensions. -/
def lowerChar (c : Char) : Char :=
  if 65 ≤ c.toNat ∧ c.toNat ≤ 90 then Char.ofNat (c.toNat + 32) else c

/-- The characters after the last dot: Python filename.split('.')[-1],
accumulating since the most recent '.'. -/
def afterLastDot (acc : List Char) : List Char → List Char
  | [] => acc
  | c :: rest => if c = '.' then afterLastDot [] rest else afterLastDot (acc ++ [c]) rest

/-- file.filename.split('.')[-1].lower() (src/api/routes/upload.py line
133). -/
def file_extension (filename : String) : String :=
  String.mk ((afterLastDot [] filename.toList).map lowerChar)

/-- The error outcomes of the single-document upload route, in the order
the route checks them. -/
inductive UploadError
  | forbidden
  | unsupportedType
  | payloadTooLarge
  | encryptionFailed
  deriving DecidableEq

/-- The receipt returned by the single-document upload route. -/
structure UploadResponse where
  report_id : Nat
  filename : String
  status : String
  deriving DecidableEq

/-- upload_document (src/api/routes/upload.py lines 106-211).
Call-level nondeterminism enters as arguments: uuid models the fresh
uuid.uuid4() prefix, encrypt_ok models the boolean returned by
encrypt_file (False on any exception, in which case nothing was
durably written to the encrypted store), parsed_date models the result
of the lenient ISO-8601 parse (unparsable dates become none), and
can_upload and user_id come from the authenticated caller.  Note that
on encryption failure the route calls os.unlink on the staged
plaintext before raising. -/
def upload_document (C : CryptoPrims) (S : Settings)
    (can_upload : Bool) (user_id : Nat) (filename : String) (content : Bytes)
    (patient_id patient_name : Option Bytes) (parsed_date : Option String)
    (uuid : String) (encrypt_ok : Bool) (st : GState) :
    Except UploadError UploadResponse × GState :=
  if ¬ can_upload then (Except.error UploadError.forbidden, st)
  else
    let ext := file_extension filename
    if ext ∉ S.ALLOWED_EXTENSIONS then (Except.error UploadError.unsupportedType, st)
    else
      let size := content.length
      if S.MAX_UPLOAD_SIZE < size then (Except.error UploadError.payloadTooLarge, st)
      else
        let unique := uuid ++ "_" ++ filename
        let temp := S.UPLOAD_DIR ++ "/" ++ unique
        let encp := S.UPLOAD_DIR ++ "/encrypted/" ++ unique
        let fs1 := writeFile st.fs temp content
        if ¬ encrypt_ok then
          (Except.error UploadError.encryptionFailed, { st with fs := removeFile fs1 temp })
        else
          let fs2 := writeFile fs1 encp (encrypt_file_bytes C content)
          let rid := st.db.next_id
          let report : MedicalReport :=
            { id := rid, filename := filename, file_path := encp,
              file_size := size, file_type := ext,
              patient_id := patient_id.bind
                (fun p => if p = [] then none else some (encrypt_data C p)),
              patient_name := patient_name.bind
                (fun p => if p = [] then none else some (encrypt_data C p)),
              report_date := parsed_date,
              status := ReportStatus.pending,
              uploaded_by := user_id, is_encrypted := true }
          let db2 : DB :=
            { reports := st.db.reports ++ [report],
              entities := st.db.entities, next_id := rid + 1 }
          (Except.ok { report_id := rid, filename := filename, status := "pending" },
           { fs := fs2, db := db2,
             tasks := st.tasks ++ [{ report_id := rid, file_path := temp, file_type := ext }] })

/-- The dictionary returned by StorageService.save_file (the hash entry,
unused by any claim, is not carried). -/
structure SaveInfo where
  filename : String
  stored_filename : String
  path : String
  size : Nat
  encrypted : Bool
  deriving DecidableEq

/-- StorageService.save_file with encrypt=True (src/storage_service.py
lines 31-79): stage the stream under the upload root, then seal it; only
on confirmed cipher success is the staging file unlinked, while on
cipher failure the function raises and leaves the staging file in
place.  stamp models the timestamp prefix of the unique filename. -/
def StorageService.save_file (C : CryptoPrims) (S : Settings)
    (stamp filename : String) (content : Bytes) (encrypt_ok : Bool) (fs : FS) :
    Except String SaveInfo × FS :=
  let unique := stamp ++ "_" ++ filename
  let temp := S.UPLOAD_DIR ++ "/" ++ unique
  let fs1 := writeFile fs temp content
  let size := content.length
  if encrypt_ok then
    let encp := S.UPLOAD_DIR ++ "/encrypted/" ++ unique
    let fs2 := removeFile (writeFile fs1 encp (encrypt_file_bytes C content)) temp
    (Except.ok { filename := filename, stored_filename := unique, path := encp,
                 size := size, encrypted := true }, fs2)
  else
    (Except.error "File encryption failed", fs1)

/-- What can go wrong while the batch route handles one file: encFail
means encrypt_file returned False (a result the batch route ignores),
exc means an exception inside the per-file try block, modelled at the
file-write step, before any state change for that file. -/
inductive BatchFault
  | ok
  | encFail
  | exc
  deriving DecidableEq

/-- One element of the files list of the batch route, together with its
fresh uuid and its fault behaviour for this run. -/
structure BatchFile where
  filename : String
  content : Bytes
  uuid : String
  fault : BatchFault
  deriving DecidableEq

/-- One element of the results list returned by the batch route. -/
structure BatchEntry where
  filename : String
  report_id : Option Nat
  status : String
  message : String
  deriving DecidableEq

/-- The rejections the batch route issues before touching any file. -/
inductive BatchError
  | forbidden
  | tooMany
  deriving DecidableEq

/-- The body of the per-file loop of upload_batch_documents
(src/api/routes/upload.py lines 238-300).  The extension check comes
first; an exception anywhere in the try block is answered with a
per-file error entry; otherwise the file is staged, encrypted (with the
boolean result of encrypt_file discarded), recorded with status PENDING
and scheduled.  No MAX_UPLOAD_SIZE comparison occurs on this path. -/
def process_batch_file (C : CryptoPrims) (S : Settings) (user_id : Nat)
    (f : BatchFile) (st : GState) : BatchEntry × GState :=
  let ext := file_extension f.filename
  if ext ∉ S.ALLOWED_EXTENSIONS then
    ({ filename := f.filename, report_id := none, status := "error",
       message := "File type not allowed" }, st)
  else if f.fault = BatchFault.exc then
    ({ filename := f.filename, report_id := none, status := "error",
       message := "exception" }, st)
  else
    let unique := f.uuid ++ "_" ++ f.filename
    let temp := S.UPLOAD_DIR ++ "/" ++ unique
    let encp := S.UPLOAD_DIR ++ "/encrypted/" ++ unique
    let fs1 := writeFile st.fs temp f.content
    let fs2 := if f.fault = BatchFault.encFail then fs1
               else writeFile fs1 encp (encrypt_file_bytes C f.content)
    let rid := st.db.next_id
    let report : MedicalReport :=
      { id := rid, filename := f.filename, file_path := encp,
        file_size := f.content.length, file_type := ext,
        status := ReportStatus.pending, uploaded_by := user_id, is_encrypted := true }
    ({ filename := f.filename, report_id := some rid, status := "pending",
       message := "Uploaded successfully" },
     { fs := fs2,
       db := { reports := st.db.reports ++ [report],
               entities := st.db.entities, next_id := rid + 1 },
       tasks := st.tasks ++ [{ report_id := rid, file_path := temp, file_type := ext }] })

/-- The for-loop of the batch route, threading state left to right and
collecting one result entry per file. -/
def batch_loop (C : CryptoPrims) (S : Settings) (user_id : Nat) :
    List BatchFile → GState → List BatchEntry × GState
  | [], st => ([], st)
  | f :: rest, st =>
    let r1 := process_batch_file C S user_id f st
    let r2 := batch_loop C S user_id rest r1.2
    (r1.1 :: r2.1, r2.2)

/-- upload_batch_documents (src/api/routes/upload.py lines 214-302):
permission check, the fixed maximum of 10 files, then the per-file
loop. -/
def upload_batch_documents (C : CryptoPrims) (S : Settings)
    (can_upload : Bool) (user_id : Nat) (files : List BatchFile) (st : GState) :
    Except BatchError (List BatchEntry) × GState :=
  if ¬ can_upload then (Except.error BatchError.forbidden, st)
  else if 10 < files.length then (Except.error BatchError.tooMany, st)
  else
    let r := batch_loop C S user_id files st
    (Except.ok r.1, r.2)

/-- The dictionary returned by OCRService.process_document
(src/ocr_service.py): success flag, recognized text, confidence,
processing time, page count and error message, with the optional keys
read through dict.get by the caller. -/
structure OcrResult where
  success : Bool
  text : Bytes := []
  confidence : Option Nat := none
  processing_time : Option Nat := none
  pages : Option Nat := none
  error : Option String := none
  deriving DecidableEq

/-- One element of a per-type list returned by the Entity Engine.  The
background task checks isinstance(entity_data, dict) and silently skips
anything that is not a dict. -/
inductive EntityItem
  | dict (text : Bytes) (confidence : Nat) (context : Bytes)
  | other
  deriving DecidableEq

/-- Whether an item passes the isinstance(entity_data, dict) check. -/
def EntityItem.isDict : EntityItem → Bool
  | EntityItem.dict _ _ _ => true
  | EntityItem.other => false

/-- The mapping from entity kind to extracted items. -/
abbrev EntityMap := List (String × List EntityItem)

/-- The total number of extracted items reported by the Entity Engine. -/
def itemCount (m : EntityMap) : Nat :=
  (m.map (fun p => p.2.length)).sum

/-- The number of items that pass the isinstance dict check. -/
def dictCount (m : EntityMap) : Nat :=
  (m.map (fun p => (p.2.filter EntityItem.isDict).length)).sum

/-- Modelled from the spec: the Entity Engine
(app.services.entity_extraction, not under src/) — input is recognized
text, output a mapping from entity kind to a list of text, confidence
and context records, plus a normalization function keyed by entity kind
and an entity-type summary used for document metadata.  It enters the
embedding as an abstract parameter. -/
structure EntityService where
  extract_entities : Bytes → EntityMap
  get_entity_summary : EntityMap → List (String × Nat)
  normalize_entity : Bytes → String → Bytes

/-- Where, if anywhere, the one fault of a background run strikes:
at the OCR call, at entity extraction, at the summary computation, at
text encryption, at the normalize call for the k-th dict item (counted
from 0 across all types), or at the final db_session.commit(). -/
inductive FaultPoint
  | noFault
  | ocrCall
  | extract
  | summary
  | encryptText
  | normalize (k : Nat)
  | commitFinal
  deriving DecidableEq

/-- Modelled from the spec: the transactional database session handed to
the background task (app.database.get_db, not under src/).  pending is
the in-memory state seen through the session (attribute assignments and
session.add calls not yet committed); commit atomically publishes
pending, or — per the spec's atomic-transition requirement — fails,
rolling the transaction back so the session reverts to the committed
state. -/
structure DbSession where
  committed : DB
  pending : DB
  deriving DecidableEq

/-- A commit that succeeds: the pending state becomes durable. -/
def DbSession.commitOk (s : DbSession) : DbSession :=
  { committed := s.pending, pending := s.pending }

/-- A commit that fails: the transaction is rolled back and nothing of
the pending state is published. -/
def DbSession.commitFail (s : DbSession) : DbSession :=
  { committed := s.committed, pending := s.committed }

/-- Lines 79-93 for one per-type list: stage one ExtractedEntity per
dict item, skipping non-dicts; k counts dict items already staged; the
normalize fault aborts (Except.error) with the partially staged
database. -/
def stageEntityList (E : EntityService) (rid : Nat) (etype : String)
    (faultAt : Option Nat) :
    List EntityItem → Nat → DB → Except DB (Nat × DB)
  | [], k, db => Except.ok (k, db)
  | EntityItem.other :: rest, k, db => stageEntityList E rid etype faultAt rest k db
  | EntityItem.dict t c ctx :: rest, k, db =>
    if faultAt = some k then Except.error db
    else
      let e : ExtractedEntity :=
        { report_id := rid, entity_type := etype, entity_text := t,
          normalized_text := E.normalize_entity t etype,
          confidence := c, context := ctx }
      stageEntityList E rid etype faultAt rest (k + 1) (db.addEntity e)

/-- Lines 79-93 over the whole entity mapping. -/
def stageEntities (E : EntityService) (rid : Nat) (faultAt : Option Nat) :
    EntityMap → Nat → DB → Except DB (Nat × DB)
  | [], k, db => Except.ok (k, db)
  | (etype, items) :: rest, k, db =>
    match stageEntityList E rid etype faultAt items k db with
    | Except.error db2 => Except.error db2
    | Except.ok kdb => stageEntities E rid faultAt rest kdb.1 kdb.2

/-- The except block at lines 97-102: mark the report FAILED with the
error message and commit.  The handler's own commit is the second,
recovery transaction and is taken to succeed (the single fault of the
run has already struck). -/
def failHandler (rid : Nat) (msg : String) (s : DbSession) : DbSession :=
  DbSession.commitOk
    { s with pending := (s.pending.updateReport rid
        (fun r => { r with status := ReportStatus.failed,
                           metadata := some (ReportMetadata.errorMsg msg) })) }

/-- Lines 47-49: stage status PROCESSING and commit. -/
def markProcessing (rid : Nat) (s : DbSession) : DbSession :=
  DbSession.commitOk
    { s with pending := (s.pending.updateReport rid
        (fun r => { r with status := ReportStatus.processing })) }

/-- Lines 54-58: the Recognition Engine reported success=False — stage
status FAILED with the reported error (default message when absent) and
commit. -/
def markOcrFailed (rid : Nat) (ocr : OcrResult) (s : DbSession) : DbSession :=
  DbSession.commitOk
    { s with pending := (s.pending.updateReport rid
        (fun r => { r with status := ReportStatus.failed,
                           metadata := some (ReportMetadata.errorMsg
                             (ocr.error.getD "OCR failed")) })) }

/-- Lines 64-76: stage the encrypted recognized text, confidence and
processing time (dict-get defaults 0), the summary metadata (dict-get
default 1 page) and status COMPLETED on the report row. -/
def stageResults (C : CryptoPrims) (rid : Nat) (ocr : OcrResult)
    (entity_summary : List (String × Nat)) (db : DB) : DB :=
  db.updateReport rid (fun r =>
    { r with
      ocr_text := some (encrypt_data C ocr.text),
      confidence_score := some (ocr.confidence.getD 0),
      processing_time := some (ocr.processing_time.getD 0),
      metadata := some (ReportMetadata.summary entity_summary (ocr.pages.getD 1)),
      status := ReportStatus.completed })

/-- The fault index the staging loop sees: only a normalize fault has
one. -/
def faultIndex : FaultPoint → Option Nat
  | FaultPoint.normalize k => some k
  | _ => none

/-- process_document_background (src/api/routes/upload.py lines 31-102).
The report is looked up through the session; a missing row returns
silently.  Status goes to PROCESSING and is committed.  An OCR report
with success=False ends the run as FAILED with the error message.  On
the success path the result fields (encrypted text, confidence with
dict-get default 0, processing time with default 0, summary metadata,
status COMPLETED) are staged on the session, the entity rows are staged,
and one final commit publishes everything.  Any raised fault lands in
the except handler, which marks FAILED and commits whatever is then
pending; a failed final commit first rolls the transaction back.  The
assignment report.extracted_entities = entities at line 71 stores the
raw engine dictionary on an unmapped attribute and has no persisted
effect, so it is not modelled. -/
def process_document_background (E : EntityService) (C : CryptoPrims)
    (report_id : Nat) (ocr : OcrResult) (fp : FaultPoint) (s : DbSession) : DbSession :=
  match findReport s.pending report_id with
  | none => s
  | some _ =>
    let s1 := markProcessing report_id s
    if fp = FaultPoint.ocrCall then failHandler report_id "ocr exception" s1
    else if ¬ ocr.success then markOcrFailed report_id ocr s1
    else if fp = FaultPoint.extract then failHandler report_id "extract exception" s1
    else
      let entities := E.extract_entities ocr.text
      if fp = FaultPoint.summary then failHandler report_id "summary exception" s1
      else
        let entity_summary := E.get_entity_summary entities
        if fp = FaultPoint.encryptText then failHandler report_id "encrypt exception" s1
        else
          let pend1 := stageResults C report_id ocr entity_summary s1.pending
          match stageEntities E report_id (faultIndex fp) entities 0 pend1 with
          | Except.error pend2 =>
            failHandler report_id "normalize exception" { s1 with pending := pend2 }
          | Except.ok kdb =>
            if fp = FaultPoint.commitFinal then
              failHandler report_id "commit failed"
                (DbSession.commitFail { s1 with pending := kdb.2 })
            else
              DbSession.commitOk { s1 with pending := kdb.2 }

/-- The Settings defaults of src/config.py. -/
def defaultSettings : Settings := {}

/-- A deployment whose configured maximum upload size is 2 bytes (the
limit is an env-overridable setting). -/
def smallSettings : Settings := { MAX_UPLOAD_SIZE := 2 }

/-- An empty store whose first Document receives identifier 1. -/
def emptyDB : DB := { reports := [], entities := [], next_id := 1 }

/-- An empty filesystem, store and task queue. -/
def emptyState : GState := { fs := [], db := emptyDB, tasks := [] }

/-- A PENDING report as the gateway creates it, concrete input for the
background-task theorems. -/
def sampleReport : MedicalReport :=
  { id := 1, filename := "scan.pdf", file_path := "./uploads/encrypted/u1_scan.pdf",
    file_size := 2, file_type := "pdf", status := ReportStatus.pending,
    uploaded_by := 1, is_encrypted := true }

/-- A store holding exactly the sample report. -/
def sampleDB : DB := { reports := [sampleReport], entities := [], next_id := 2 }

/-- A clean session over the sample store. -/
def sampleSession : DbSession := { committed := sampleDB, pending := sampleDB }

/-- A concrete Entity Engine used to evaluate the theorems: it reports
two dict items of kind disease on any text, summarizes by length, and
normalizes to the identity. -/
def refEntityService : EntityService where
  extract_entities _ := [("disease", [EntityItem.dict [97] 5 [99], EntityItem.dict [98] 6 [99]])]
  get_entity_summary m := m.map (fun p => (p.1, p.2.length))
  normalize_entity t _ := t

/-- A successful concrete OCR report. -/
def sampleOcr : OcrResult :=
  { success := true, text := [116], confidence := some 9, processing_time := some 4,
    pages := some 1, error := none }

/-- The background run in which the normalize call for the second dict
item raises after the result fields and the first entity row were
staged. -/
def normalizeFaultRun : DbSession :=
  process_document_background refEntityService refPrims 1 sampleOcr
    (FaultPoint.normalize 1) sampleSession

/-! Theorems.  First the cipher boundary (claims C4, C5, C10). -/

/-- Changing one element of a list at an in-range position to a
different value changes its sum, because every element is counted with
its exact (unbounded) magnitude. -/
theorem sum_set_ne (b : Bytes) (i v : Nat) (hi : i < b.length) (hv : v ≠ b.getD i 0) :
    (b.set i v).sum ≠ b.sum := by
  induction b generalizing i with
  | nil => simp at hi
  | cons x rest ih =>
    cases i with
    | zero =>
      simp only [List.set, List.sum_cons, List.getD_cons_zero] at hv ⊢
      intro h
      exact hv (Nat.add_right_cancel h)
    | succ i =>
      simp only [List.set, List.sum_cons, List.getD_cons_succ] at hv ⊢
      have := ih i (by simpa using hi) hv
      omega

/-- The reference primitives satisfy the documented contract. -/
theorem refPrims_ok : PrimsOK refPrims where
  fernet_roundtrip b := by simp [refPrims]
  fernet_authentic t b h := by
    cases t with
    | nil => simp [refPrims] at h
    | cons x rest =>
      simp only [refPrims] at h
      by_cases hx : x = rest.sum
      · rw [if_pos hx] at h
        cases h
        simp [refPrims, hx]
      · rw [if_neg hx] at h
        cases h
  fernet_tamper b i v hi hv := by
    cases i with
    | zero =>
      have hv0 : v ≠ b.sum := by simpa [refPrims] using hv
      simp [refPrims, List.set, hv0]
    | succ i =>
      have hi2 : i < b.length := by simpa [refPrims] using hi
      have hv2 : v ≠ b.getD i 0 := by simpa [refPrims] using hv
      have hs := sum_set_ne b i v hi2 hv2
      simp only [refPrims, List.set]
      rw [if_neg (fun h => hs h.symm)]
  fernet_ne_nil b := by simp [refPrims]
  b64_roundtrip b := by simp [refPrims]
  b64_ne_nil b h := by simpa [refPrims] using h

/-- C5: decryption is a left inverse of encryption under the loaded
key: for every non-empty plaintext, decrypt_data after encrypt_data and
decrypt_text after encrypt_text return it unchanged, and for every byte
sequence the file-level decryption inverts the file-level encryption. -/
theorem decrypt_is_left_inverse (C : CryptoPrims) (hC : PrimsOK C) :
    (∀ x : Bytes, x ≠ [] →
        decrypt_data C (encrypt_data C x) = x ∧
        (EncryptionService.encrypt_text C x).bind (EncryptionService.decrypt_text C) =
          Except.ok x) ∧
    (∀ b : Bytes, decrypt_file_bytes C (encrypt_file_bytes C b) = some b) := by
  constructor
  · intro x hx
    have htok : C.fernetEnc x ≠ [] := hC.fernet_ne_nil x
    have henc : C.b64enc (C.fernetEnc x) ≠ [] := hC.b64_ne_nil _ htok
    constructor
    · simp only [encrypt_data, if_neg hx, decrypt_data, if_neg henc,
        hC.b64_roundtrip, hC.fernet_roundtrip]
    · simp only [EncryptionService.encrypt_text, if_neg hx, Except.bind,
        EncryptionService.decrypt_text, if_neg henc,
        hC.b64_roundtrip, hC.fernet_roundtrip]
  · intro b
    simpa only [decrypt_file_bytes, encrypt_file_bytes] using hC.fernet_roundtrip b

/-- C5 witness: the round-trip evaluated at the reference primitives on
concrete inputs. -/
theorem decrypt_is_left_inverse_witness :
    decrypt_data refPrims (encrypt_data refPrims [3, 7]) = [3, 7] ∧
    (EncryptionService.encrypt_text refPrims [3, 7]).bind
      (EncryptionService.decrypt_text refPrims) = Except.ok [3, 7] ∧
    decrypt_file_bytes refPrims (encrypt_file_bytes refPrims [5]) = some [5] :=
  have h := decrypt_is_left_inverse refPrims refPrims_ok
  have h1 := h.1 [3, 7] (by decide)
  ⟨h1.1, h1.2, h.2 [5]⟩

/-- C4 counterexample: at the reference primitives, corrupting one byte
of the ciphertext produced by encrypt_data makes decrypt_data return
the empty string — a normally returned value different from the
original plaintext — instead of failing with a decryption error. -/
theorem tampered_decrypt_data_returns_empty :
    (encrypt_data refPrims [97]).set 0 98 ≠ encrypt_data refPrims [97] ∧
    decrypt_data refPrims ((encrypt_data refPrims [97]).set 0 98) = [] ∧
    ([] : Bytes) ≠ [97] := by decide

/-- C4 (amended): corrupting any single byte of a token produced by the
cipher makes the file-level decryption fail and makes decrypt_text fail
with a decryption error, while decrypt_data in src/security.py swallows
the failure and returns the empty string instead of raising; none of
them returns a non-empty value different from the original plaintext. -/
theorem tampered_ciphertext_never_decrypts (C : CryptoPrims) (hC : PrimsOK C)
    (b : Bytes) (i v : Nat)
    (hi : i < (C.fernetEnc b).length) (hv : v ≠ (C.fernetEnc b).getD i 0) :
    decrypt_file_bytes C ((C.fernetEnc b).set i v) = none ∧
    EncryptionService.decrypt_text C (C.b64enc ((C.fernetEnc b).set i v)) =
      Except.error "Decryption failed" ∧
    decrypt_data C (C.b64enc ((C.fernetEnc b).set i v)) = [] := by
  have hd := hC.fernet_tamper b i v hi hv
  have hne : (C.fernetEnc b).set i v ≠ [] := by
    intro h
    have hlen := congrArg List.length h
    simp only [List.length_set, List.length_nil] at hlen
    exact hC.fernet_ne_nil b (List.length_eq_zero.mp hlen)
  have hb64 : C.b64enc ((C.fernetEnc b).set i v) ≠ [] := hC.b64_ne_nil _ hne
  refine ⟨hd, ?_, ?_⟩
  · simp only [EncryptionService.decrypt_text, if_neg hb64, hC.b64_roundtrip, hd]
  · simp only [decrypt_data, if_neg hb64, hC.b64_roundtrip, hd]

/-- C4 (amended) witness: the tampered-token behaviour evaluated at the
reference primitives on a concrete plaintext. -/
theorem tampered_ciphertext_never_decrypts_witness :
    decrypt_file_bytes refPrims ((refPrims.fernetEnc [97]).set 0 98) = none ∧
    EncryptionService.decrypt_text refPrims
      (refPrims.b64enc ((refPrims.fernetEnc [97]).set 0 98)) =
      Except.error "Decryption failed" ∧
    decrypt_data refPrims (refPrims.b64enc ((refPrims.fernetEnc [97]).set 0 98)) = [] :=
  tampered_ciphertext_never_decrypts refPrims refPrims_ok [97] 0 98 (by decide) (by decide)

/-- C10: the field-level interface passes the empty string through
unchanged in both directions, without invoking the cipher, so the
round-trip also holds for empty input. -/
theorem empty_string_passthrough (C : CryptoPrims) :
    encrypt_data C [] = [] ∧ decrypt_data C [] = [] ∧
    decrypt_data C (encrypt_data C []) = [] ∧
    EncryptionService.encrypt_text C [] = Except.ok [] ∧
    EncryptionService.decrypt_text C [] = Except.ok [] := by
  refine ⟨rfl, rfl, rfl, rfl, rfl⟩

/-! Filesystem and lookup lemmas. -/

/-- A freshly written file reads back its content. -/
theorem readFile_writeFile_self (fs : FS) (p : String) (c : Bytes) :
    readFile (writeFile fs p c) p = some c := by
  simp [readFile, writeFile, List.find?]

/-- A removed file no longer reads. -/
theorem readFile_removeFile_self (fs : FS) (p : String) :
    readFile (removeFile fs p) p = none := by
  unfold readFile removeFile
  have h : (fs.filter (fun e => ¬ e.1 = p)).find? (fun e => e.1 == p) = none := by
    rw [List.find?_eq_none]
    intro x hx
    have hm := List.of_mem_filter hx
    simp only [decide_eq_true_eq] at hm
    simpa using hm
  simp [h]

/-- find? over an id-preserving conditional map rewrites to a map over
the original find?. -/
theorem find_update (l : List MedicalReport) (rid : Nat) (f : MedicalReport → MedicalReport)
    (hf : ∀ r, (f r).id = r.id) :
    (l.map (fun r => if r.id = rid then f r else r)).find? (fun r => r.id == rid) =
      (l.find? (fun r => r.id == rid)).map f := by
  induction l with
  | nil => rfl
  | cons a t ih =>
    by_cases h : a.id = rid
    · simp [List.find?, h, hf]
    · have hb : (a.id == rid) = false := by simpa using h
      simp [List.find?, h, hb, ih]

/-- Lookup after an id-preserving row update. -/
theorem findReport_updateReport (db : DB) (rid : Nat) (f : MedicalReport → MedicalReport)
    (hf : ∀ r, (f r).id = r.id) :
    findReport (db.updateReport rid f) rid = (findReport db rid).map f :=
  find_update db.reports rid f hf

/-- Lookup only depends on the report rows. -/
theorem findReport_congr (db1 db2 : DB) (rid : Nat) (h : db1.reports = db2.reports) :
    findReport db1 rid = findReport db2 rid := by
  unfold findReport
  rw [h]

/-- A row appended with a fresh identifier is found by that identifier. -/
theorem find_append_fresh (l : List MedicalReport) (r : MedicalReport) (rid : Nat)
    (hid : r.id = rid) (h : ∀ x ∈ l, x.id ≠ rid) :
    (l ++ [r]).find? (fun x => x.id == rid) = some r := by
  induction l with
  | nil => simp [List.find?, hid]
  | cons a t ih =>
    have ha := h a (by simp)
    simp only [List.cons_append, List.find?]
    rw [show (a.id == rid) = false by simpa using ha]
    exact ih (fun x hx => h x (by simp [hx]))

/-! The upload route (claims C7, C6, C1). -/

/-- C7: an upload whose filename suffix is outside the allow-list is
rejected with the unsupported-type error before any write: the returned
state is exactly the input state, so no Document row is created and no
blob is written to the encrypted store. -/
theorem reject_disallowed_extension (C : CryptoPrims) (S : Settings)
    (user_id : Nat) (filename : String) (content : Bytes)
    (patient_id patient_name : Option Bytes) (parsed_date : Option String)
    (uuid : String) (encrypt_ok : Bool) (st : GState)
    (hext : file_extension filename ∉ S.ALLOWED_EXTENSIONS) :
    upload_document C S true user_id filename content patient_id patient_name
      parsed_date uuid encrypt_ok st =
      (Except.error UploadError.unsupportedType, st) := by
  simp [upload_document, hext]

/-- C7 witness: an exe upload against the default allow-list. -/
theorem reject_disallowed_extension_witness :
    upload_document refPrims defaultSettings true 1 "malware.exe" [1] none none none
      "u1" true emptyState = (Except.error UploadError.unsupportedType, emptyState) :=
  reject_disallowed_extension refPrims defaultSettings 1 "malware.exe" [1] none none none
    "u1" true emptyState (by decide)

/-- C6: a valid upload returns a pending receipt whose identifier
resolves, immediately after the synchronous call returns and before any
background work has run, to a Document row with status PENDING. -/
theorem upload_returns_pending_document (C : CryptoPrims) (S : Settings)
    (user_id : Nat) (filename : String) (content : Bytes)
    (patient_id patient_name : Option Bytes) (parsed_date : Option String)
    (uuid : String) (st : GState)
    (hext : file_extension filename ∈ S.ALLOWED_EXTENSIONS)
    (hsize : content.length ≤ S.MAX_UPLOAD_SIZE)
    (hfresh : ∀ r ∈ st.db.reports, r.id ≠ st.db.next_id) :
    ∃ resp st2,
      upload_document C S true user_id filename content patient_id patient_name
        parsed_date uuid true st = (Except.ok resp, st2) ∧
      resp.status = "pending" ∧ resp.filename = filename ∧
      ∃ rep, findReport st2.db resp.report_id = some rep ∧
        rep.status = ReportStatus.pending := by
  have hlt : ¬ S.MAX_UPLOAD_SIZE < content.length := Nat.not_lt.mpr hsize
  simp only [upload_document, if_neg (show ¬¬(true = true) by simp),
    if_neg (not_not_intro hext), if_neg hlt]
  refine ⟨_, _, rfl, rfl, rfl, ?_⟩
  unfold findReport
  exact ⟨_, find_append_fresh st.db.reports _ st.db.next_id rfl
    (fun x hx => hfresh x hx), rfl⟩

/-- C6 witness: a concrete valid pdf upload into the empty store. -/
theorem upload_returns_pending_document_witness :
    ∃ resp st2,
      upload_document refPrims defaultSettings true 1 "scan.pdf" [1, 2] none none none
        "u1" true emptyState = (Except.ok resp, st2) ∧
      resp.status = "pending" ∧ resp.filename = "scan.pdf" ∧
      ∃ rep, findReport st2.db resp.report_id = some rep ∧
        rep.status = ReportStatus.pending :=
  upload_returns_pending_document refPrims defaultSettings 1 "scan.pdf" [1, 2]
    none none none "u1" emptyState (by decide) (by decide) (by decide)

/-- C1 counterexample: a concrete upload whose sealing step fails
creates no Document and fails with the encryption error, but the staged
plaintext file is NOT left in place — the route unlinks it before
raising, returning the filesystem to its prior empty state. -/
theorem encrypt_failure_deletes_staging :
    upload_document refPrims defaultSettings true 1 "scan.pdf" [1, 2] none none none
      "u1" false emptyState =
      (Except.error UploadError.encryptionFailed, emptyState) ∧
    readFile (upload_document refPrims defaultSettings true 1 "scan.pdf" [1, 2] none none
      none "u1" false emptyState).2.fs "./uploads/u1_scan.pdf" = none :=
  ⟨rfl, rfl⟩

/-- C1 (amended): if sealing fails during upload, no Document row is
created and the call fails with the encryption error, but the upload
route deletes the staged plaintext file rather than leaving it in
place; StorageService.save_file, by contrast, raises on cipher failure
and leaves its staging file intact. -/
theorem encrypt_failure_aborts_upload (C : CryptoPrims) (S : Settings)
    (user_id : Nat) (filename : String) (content : Bytes)
    (patient_id patient_name : Option Bytes) (parsed_date : Option String)
    (uuid stamp : String) (st : GState) (fs0 : FS)
    (hext : file_extension filename ∈ S.ALLOWED_EXTENSIONS)
    (hsize : content.length ≤ S.MAX_UPLOAD_SIZE) :
    (upload_document C S true user_id filename content patient_id patient_name
       parsed_date uuid false st).1 = Except.error UploadError.encryptionFailed ∧
    (upload_document C S true user_id filename content patient_id patient_name
       parsed_date uuid false st).2.db = st.db ∧
    readFile (upload_document C S true user_id filename content patient_id patient_name
       parsed_date uuid false st).2.fs
      (S.UPLOAD_DIR ++ "/" ++ (uuid ++ "_" ++ filename)) = none ∧
    (StorageService.save_file C S stamp filename content false fs0).1 =
      Except.error "File encryption failed" ∧
    readFile (StorageService.save_file C S stamp filename content false fs0).2
      (S.UPLOAD_DIR ++ "/" ++ (stamp ++ "_" ++ filename)) = some content := by
  have hlt : ¬ S.MAX_UPLOAD_SIZE < content.length := Nat.not_lt.mpr hsize
  have hup : upload_document C S true user_id filename content patient_id patient_name
      parsed_date uuid false st =
      (Except.error UploadError.encryptionFailed,
        { st with fs := (removeFile (writeFile st.fs
            (S.UPLOAD_DIR ++ "/" ++ (uuid ++ "_" ++ filename)) content)
            (S.UPLOAD_DIR ++ "/" ++ (uuid ++ "_" ++ filename))) }) := by
    simp [upload_document, hext, hlt]
  have hsf : StorageService.save_file C S stamp filename content false fs0 =
      (Except.error "File encryption failed",
        writeFile fs0 (S.UPLOAD_DIR ++ "/" ++ (stamp ++ "_" ++ filename)) content) := by
    simp [StorageService.save_file]
  rw [hup, hsf]
  exact ⟨rfl, rfl, readFile_removeFile_self _ _, rfl, readFile_writeFile_self _ _ _⟩

/-- C1 (amended) witness: the encryption-failure behaviour evaluated on
a concrete pdf upload and a concrete save_file call. -/
theorem encrypt_failure_aborts_upload_witness :
    (upload_document refPrims defaultSettings true 1 "scan.pdf" [1, 2] none none none
       "u1" false emptyState).1 = Except.error UploadError.encryptionFailed ∧
    (upload_document refPrims defaultSettings true 1 "scan.pdf" [1, 2] none none none
       "u1" false emptyState).2.db = emptyState.db ∧
    readFile (upload_document refPrims defaultSettings true 1 "scan.pdf" [1, 2] none none
       none "u1" false emptyState).2.fs
      (defaultSettings.UPLOAD_DIR ++ "/" ++ ("u1" ++ "_" ++ "scan.pdf")) = none ∧
    (StorageService.save_file refPrims defaultSettings "t1" "scan.pdf" [1, 2] false []).1 =
      Except.error "File encryption failed" ∧
    readFile (StorageService.save_file refPrims defaultSettings "t1" "scan.pdf" [1, 2]
       false []).2
      (defaultSettings.UPLOAD_DIR ++ "/" ++ ("t1" ++ "_" ++ "scan.pdf")) = some [1, 2] :=
  encrypt_failure_aborts_upload refPrims defaultSettings 1 "scan.pdf" [1, 2] none none none
    "u1" "t1" emptyState [] (by decide) (by decide)

/-! The batch route (claim C8). -/

/-- One iteration of the batch loop: the entry status depends only on
the file itself, and a Document row is added exactly when the file
passes the extension check without an exception. -/
theorem process_batch_file_step (C : CryptoPrims) (S : Settings) (user_id : Nat)
    (f : BatchFile) (st : GState) :
    (process_batch_file C S user_id f st).1.status =
      (if file_extension f.filename ∈ S.ALLOWED_EXTENSIONS ∧ f.fault ≠ BatchFault.exc
       then "pending" else "error") ∧
    (process_batch_file C S user_id f st).2.db.reports.length =
      st.db.reports.length +
        (if file_extension f.filename ∈ S.ALLOWED_EXTENSIONS ∧ f.fault ≠ BatchFault.exc
         then 1 else 0) := by
  by_cases h1 : file_extension f.filename ∈ S.ALLOWED_EXTENSIONS
  · by_cases h2 : f.fault = BatchFault.exc
    · simp [process_batch_file, h1, h2]
    · simp [process_batch_file, h1, h2]
  · simp [process_batch_file, h1]

/-- The per-file loop of the batch route: every file contributes one
result entry whose status depends only on its own file, and one
Document row is created for exactly the files that pass the extension
check without an exception. -/
theorem batch_loop_spec (C : CryptoPrims) (S : Settings) (user_id : Nat)
    (files : List BatchFile) : ∀ st : GState,
    (batch_loop C S user_id files st).1.map (fun e => e.status) =
      files.map (fun f =>
        if file_extension f.filename ∈ S.ALLOWED_EXTENSIONS ∧ f.fault ≠ BatchFault.exc
        then "pending" else "error") ∧
    (batch_loop C S user_id files st).2.db.reports.length =
      st.db.reports.length +
        (files.filter (fun f =>
          decide (file_extension f.filename ∈ S.ALLOWED_EXTENSIONS ∧
            f.fault ≠ BatchFault.exc))).length := by
  induction files with
  | nil => intro st; simp [batch_loop]
  | cons f rest ih =>
    intro st
    have hs := process_batch_file_step C S user_id f st
    have hr := ih (process_batch_file C S user_id f st).2
    constructor
    · simp only [batch_loop, List.map_cons]
      rw [hs.1, hr.1]
    · simp only [batch_loop, List.filter_cons]
      rw [hr.2, hs.2]
      by_cases hc : file_extension f.filename ∈ S.ALLOWED_EXTENSIONS ∧
          f.fault ≠ BatchFault.exc
      · rw [if_pos hc, if_pos (decide_eq_true hc), List.length_cons]
        omega
      · rw [if_neg hc, if_neg (by simp [decide_eq_false hc])]
        omega

/-- C8 (amended): the batch endpoint accepts at most 10 files per call;
each file is validated and ingested independently — though without the
size-limit check the single-document route applies — and a failure on
one file yields a per-file error entry without aborting or affecting
the sibling entries, whose statuses depend only on their own file. -/
theorem batch_partial_success (C : CryptoPrims) (S : Settings) (user_id : Nat)
    (files : List BatchFile) (st : GState) :
    (10 < files.length →
      upload_batch_documents C S true user_id files st =
        (Except.error BatchError.tooMany, st)) ∧
    (files.length ≤ 10 →
      ∃ entries st2,
        upload_batch_documents C S true user_id files st = (Except.ok entries, st2) ∧
        entries.map (fun e => e.status) =
          files.map (fun f =>
            if file_extension f.filename ∈ S.ALLOWED_EXTENSIONS ∧ f.fault ≠ BatchFault.exc
            then "pending" else "error") ∧
        st2.db.reports.length = st.db.reports.length +
          (files.filter (fun f =>
            decide (file_extension f.filename ∈ S.ALLOWED_EXTENSIONS ∧
              f.fault ≠ BatchFault.exc))).length) := by
  constructor
  · intro h
    simp [upload_batch_documents, h]
  · intro h
    have hn : ¬ 10 < files.length := Nat.not_lt.mpr h
    have hs := batch_loop_spec C S user_id files st
    refine ⟨(batch_loop C S user_id files st).1, (batch_loop C S user_id files st).2,
      ?_, hs.1, hs.2⟩
    simp [upload_batch_documents, hn]

/-- C8 counterexample: with the maximum upload size configured at 2
bytes, the single-document route rejects a 3-byte pdf as too large, yet
the batch route accepts the very same file — its result entry says
pending and a Document row is created — so the batch path does not
apply the size-limit check of the single-upload steps. -/
theorem batch_missing_size_check :
    smallSettings.MAX_UPLOAD_SIZE < 3 ∧
    (upload_document refPrims smallSettings true 1 "big.pdf" [1, 2, 3] none none none
       "u1" true emptyState).1 = Except.error UploadError.payloadTooLarge ∧
    (upload_batch_documents refPrims smallSettings true 1
       [{ filename := "big.pdf", content := [1, 2, 3], uuid := "u1",
          fault := BatchFault.ok }] emptyState).1 =
      Except.ok [{ filename := "big.pdf", report_id := some 1, status := "pending",
                   message := "Uploaded successfully" }] ∧
    (upload_batch_documents refPrims smallSettings true 1
       [{ filename := "big.pdf", content := [1, 2, 3], uuid := "u1",
          fault := BatchFault.ok }] emptyState).2.db.reports.length = 1 :=
  ⟨by decide, rfl, rfl, rfl⟩

/-- C8 (amended) witness: the spec scenario — three files of which the
second has a disallowed extension — yields three entries with statuses
pending, error, pending, and two Document rows. -/
theorem batch_partial_success_witness :
    ∃ entries st2,
      upload_batch_documents refPrims defaultSettings true 1
        [{ filename := "a.pdf", content := [1], uuid := "u1", fault := BatchFault.ok },
         { filename := "b.exe", content := [2], uuid := "u2", fault := BatchFault.ok },
         { filename := "c.png", content := [3], uuid := "u3", fault := BatchFault.ok }]
        emptyState = (Except.ok entries, st2) ∧
      entries.map (fun e => e.status) = ["pending", "error", "pending"] ∧
      st2.db.reports.length = 2 := by
  obtain ⟨entries, st2, heq, hmap, hlen⟩ :=
    (batch_partial_success refPrims defaultSettings 1
      [{ filename := "a.pdf", content := [1], uuid := "u1", fault := BatchFault.ok },
       { filename := "b.exe", content := [2], uuid := "u2", fault := BatchFault.ok },
       { filename := "c.png", content := [3], uuid := "u3", fault := BatchFault.ok }]
      emptyState).2 (by decide)
  refine ⟨entries, st2, heq, ?_, ?_⟩
  · rw [hmap]; decide
  · rw [hlen]; decide

/-! The background task (claims C9, C3, C2). -/

/-- C9: when the background unit of work cannot find the Document row
for its identifier, it returns silently: it raises nothing and the
session is returned exactly as it was. -/
theorem missing_report_silent (E : EntityService) (C : CryptoPrims)
    (rid : Nat) (ocr : OcrResult) (fp : FaultPoint) (s : DbSession)
    (h : findReport s.pending rid = none) :
    process_document_background E C rid ocr fp s = s := by
  unfold process_document_background
  rw [h]

/-- C9 witness: the run over an empty store changes nothing. -/
theorem missing_report_silent_witness :
    process_document_background refEntityService refPrims 5 sampleOcr FaultPoint.noFault
      { committed := emptyDB, pending := emptyDB } =
      { committed := emptyDB, pending := emptyDB } :=
  missing_report_silent refEntityService refPrims 5 sampleOcr FaultPoint.noFault
    { committed := emptyDB, pending := emptyDB } rfl

/-- C3, evaluated at the failing run: OCR succeeds, the Entity Engine
reports two dict items, and the normalize call for the second raises
after the result fields and the first entity row were staged on the
session.  The except handler then marks FAILED and commits, publishing
the staged encrypted text, confidence, processing time and one Entity
row together with status FAILED — against the claim that Documents
ending FAILED have zero Entity rows and absent text, confidence and
duration. -/
theorem failed_run_with_staged_results :
    (normalizeFaultRun.committed.entitiesFor 1).length = 1 ∧
    findReport normalizeFaultRun.committed 1 =
      some { sampleReport with
        status := ReportStatus.failed,
        ocr_text := some (encrypt_data refPrims [116]),
        confidence_score := some 9,
        processing_time := some 4,
        metadata := some (ReportMetadata.errorMsg "normalize exception") } :=
  ⟨rfl, rfl⟩

/-- Lookup after the PROCESSING commit, when the row was found. -/
theorem markProcessing_find (rid : Nat) (s : DbSession) (r0 : MedicalReport)
    (hfind : findReport s.pending rid = some r0) :
    findReport (markProcessing rid s).pending rid =
      some { r0 with status := ReportStatus.processing } := by
  have h := findReport_updateReport s.pending rid
    (fun r => { r with status := ReportStatus.processing }) (fun _ => rfl)
  rw [hfind] at h
  simpa [markProcessing, DbSession.commitOk] using h

/-- After an id-preserving update whose result row is always FAILED,
every row found by the identifier is FAILED (when some row exists). -/
theorem find_failed_update (db : DB) (rid : Nat) (g : MedicalReport → MedicalReport)
    (hgid : ∀ r, (g r).id = r.id) (hgs : ∀ r, (g r).status = ReportStatus.failed)
    (hne : findReport db rid ≠ none) :
    ∀ r, findReport (db.updateReport rid g) rid = some r →
      r.status = ReportStatus.failed := by
  intro r hr
  rw [findReport_updateReport _ _ _ hgid] at hr
  cases hf : findReport db rid with
  | none => exact absurd hf hne
  | some r0 =>
    rw [hf] at hr
    simp only [Option.map_some'] at hr
    cases hr
    exact hgs r0

/-- Every row the except handler commits under the identifier is
FAILED (when some row exists in the handler's pending state). -/
theorem failHandler_failed (rid : Nat) (msg : String) (s : DbSession)
    (hne : findReport s.pending rid ≠ none) :
    ∀ r, findReport (failHandler rid msg s).committed rid = some r →
      r.status = ReportStatus.failed := by
  intro r hr
  exact find_failed_update s.pending rid
    (fun r1 => { r1 with status := ReportStatus.failed,
                         metadata := some (ReportMetadata.errorMsg msg) })
    (fun _ => rfl) (fun _ => rfl) hne r hr

/-- Staging one per-type list never errors when no normalize fault is
set. -/
theorem stageEntityList_none_ok (E : EntityService) (rid : Nat) (etype : String)
    (items : List EntityItem) : ∀ (k : Nat) (db : DB),
    ∃ k2 db2, stageEntityList E rid etype none items k db = Except.ok (k2, db2) := by
  induction items with
  | nil => intro k db; exact ⟨k, db, rfl⟩
  | cons it rest ih =>
    intro k db
    cases it with
    | other => simpa only [stageEntityList] using ih k db
    | dict t c ctx =>
      obtain ⟨k2, db2, h⟩ := ih (k + 1) (db.addEntity
        { report_id := rid, entity_type := etype, entity_text := t,
          normalized_text := E.normalize_entity t etype, confidence := c, context := ctx })
      refine ⟨k2, db2, ?_⟩
      simp only [stageEntityList]
      rw [if_neg (by simp)]
      exact h

/-- Staging the whole entity map never errors when no normalize fault
is set. -/
theorem stageEntities_none_ok (E : EntityService) (rid : Nat) (m : EntityMap) :
    ∀ (k : Nat) (db : DB),
    ∃ k2 db2, stageEntities E rid none m k db = Except.ok (k2, db2) := by
  induction m with
  | nil => intro k db; exact ⟨k, db, rfl⟩
  | cons p rest ih =>
    obtain ⟨etype, items⟩ := p
    intro k db
    obtain ⟨k1, db1, h1⟩ := stageEntityList_none_ok E rid etype items k db
    obtain ⟨k2, db2, h2⟩ := ih k1 db1
    refine ⟨k2, db2, ?_⟩
    simp only [stageEntities, h1]
    exact h2

/-- Adding an entity row owned by the report lengthens its entity list
by one. -/
theorem entitiesFor_addEntity (db : DB) (e : ExtractedEntity) (rid : Nat)
    (he : e.report_id = rid) :
    ((db.addEntity e).entitiesFor rid).length = (db.entitiesFor rid).length + 1 := by
  simp [DB.entitiesFor, DB.addEntity, List.filter_append, he]

/-- A successful staging of one per-type list adds one entity row for
the report per dict item and leaves the report rows untouched. -/
theorem stageEntityList_ok_spec (E : EntityService) (rid : Nat) (etype : String)
    (fa : Option Nat) (items : List EntityItem) :
    ∀ (k : Nat) (db : DB) (k2 : Nat) (db2 : DB),
    stageEntityList E rid etype fa items k db = Except.ok (k2, db2) →
    (db2.entitiesFor rid).length =
      (db.entitiesFor rid).length + (items.filter EntityItem.isDict).length ∧
    db2.reports = db.reports := by
  induction items with
  | nil =>
    intro k db k2 db2 h
    simp only [stageEntityList] at h
    injection h with h1
    injection h1 with hk hdb
    subst hdb
    simp
  | cons it rest ih =>
    intro k db k2 db2 h
    cases it with
    | other =>
      simp only [stageEntityList] at h
      have hres := ih k db k2 db2 h
      simpa [EntityItem.isDict] using hres
    | dict t c ctx =>
      simp only [stageEntityList] at h
      by_cases hf : fa = some k
      · rw [if_pos hf] at h
        cases h
      · rw [if_neg hf] at h
        have hres := ih (k + 1) _ k2 db2 h
        have hadd := entitiesFor_addEntity db
          { report_id := rid, entity_type := etype, entity_text := t,
            normalized_text := E.normalize_entity t etype, confidence := c, context := ctx }
          rid rfl
        have hflt : (List.filter EntityItem.isDict (EntityItem.dict t c ctx :: rest)).length =
            (List.filter EntityItem.isDict rest).length + 1 := by
          simp [EntityItem.isDict]
        refine ⟨?_, hres.2⟩
        rw [hres.1, hadd, hflt]
        omega

/-- A failed staging of one per-type list leaves the report rows
untouched. -/
theorem stageEntityList_error_reports (E : EntityService) (rid : Nat) (etype : String)
    (fa : Option Nat) (items : List EntityItem) :
    ∀ (k : Nat) (db : DB) (db2 : DB),
    stageEntityList E rid etype fa items k db = Except.error db2 →
    db2.reports = db.reports := by
  induction items with
  | nil =>
    intro k db db2 h
    simp only [stageEntityList] at h
    simp at h
  | cons it rest ih =>
    intro k db db2 h
    cases it with
    | other =>
      simp only [stageEntityList] at h
      exact ih k db db2 h
    | dict t c ctx =>
      simp only [stageEntityList] at h
      by_cases hf : fa = some k
      · rw [if_pos hf] at h
        injection h with h1
        subst h1
        rfl
      · rw [if_neg hf] at h
        exact ih (k + 1) (db.addEntity
          { report_id := rid, entity_type := etype, entity_text := t,
            normalized_text := E.normalize_entity t etype, confidence := c, context := ctx })
          db2 h

/-- A successful staging of the whole map adds one entity row per dict
item and leaves the report rows untouched. -/
theorem stageEntities_ok_spec (E : EntityService) (rid : Nat) (fa : Option Nat)
    (m : EntityMap) : ∀ (k : Nat) (db : DB) (k2 : Nat) (db2 : DB),
    stageEntities E rid fa m k db = Except.ok (k2, db2) →
    (db2.entitiesFor rid).length = (db.entitiesFor rid).length + dictCount m ∧
    db2.reports = db.reports := by
  induction m with
  | nil =>
    intro k db k2 db2 h
    simp only [stageEntities] at h
    injection h with h1
    injection h1 with hk hdb
    subst hdb
    simp [dictCount]
  | cons p rest ih =>
    obtain ⟨etype, items⟩ := p
    intro k db k2 db2 h
    simp only [stageEntities] at h
    cases hl : stageEntityList E rid etype fa items k db with
    | error db1 =>
      rw [hl] at h
      cases h
    | ok kdb =>
      rw [hl] at h
      have hlist := stageEntityList_ok_spec E rid etype fa items k db kdb.1 kdb.2
        (by rw [hl])
      have hrest := ih kdb.1 kdb.2 k2 db2 h
      constructor
      · rw [hrest.1, hlist.1]
        simp only [dictCount, List.map_cons, List.sum_cons]
        omega
      · rw [hrest.2, hlist.2]

/-- A failed staging of the whole map leaves the report rows
untouched. -/
theorem stageEntities_error_reports (E : EntityService) (rid : Nat) (fa : Option Nat)
    (m : EntityMap) : ∀ (k : Nat) (db : DB) (db2 : DB),
    stageEntities E rid fa m k db = Except.error db2 →
    db2.reports = db.reports := by
  induction m with
  | nil =>
    intro k db db2 h
    simp only [stageEntities] at h
    simp at h
  | cons p rest ih =>
    obtain ⟨etype, items⟩ := p
    intro k db db2 h
    simp only [stageEntities] at h
    cases hl : stageEntityList E rid etype fa items k db with
    | error db1 =>
      rw [hl] at h
      injection h with h1
      subst h1
      exact stageEntityList_error_reports E rid etype fa items k db db1 hl
    | ok kdb =>
      rw [hl] at h
      exact (ih kdb.1 kdb.2 db2 h).trans
        (stageEntityList_ok_spec E rid etype fa items k db kdb.1 kdb.2 (by rw [hl])).2

/-- When every reported item is a dict, the isinstance filter drops
nothing: the dict count is the full item count. -/
theorem dictCount_eq_itemCount (m : EntityMap)
    (h : ∀ p ∈ m, ∀ it ∈ p.2, EntityItem.isDict it = true) :
    dictCount m = itemCount m := by
  induction m with
  | nil => rfl
  | cons p rest ih =>
    have hp := h p (by simp)
    have hr := ih (fun q hq => h q (by simp [hq]))
    simp only [dictCount, itemCount, List.map_cons, List.sum_cons] at hr ⊢
    rw [List.filter_eq_self.mpr hp, hr]

/-- Lookup after staging the results, when the row was found. -/
theorem stageResults_find (C : CryptoPrims) (rid : Nat) (ocr : OcrResult)
    (es : List (String × Nat)) (db : DB) (r1 : MedicalReport)
    (h : findReport db rid = some r1) :
    findReport (stageResults C rid ocr es db) rid =
      some { r1 with
        ocr_text := some (encrypt_data C ocr.text),
        confidence_score := some (ocr.confidence.getD 0),
        processing_time := some (ocr.processing_time.getD 0),
        metadata := some (ReportMetadata.summary es (ocr.pages.getD 1)),
        status := ReportStatus.completed } := by
  have hu := findReport_updateReport db rid
    (fun r =>
      { r with
        ocr_text := some (encrypt_data C ocr.text),
        confidence_score := some (ocr.confidence.getD 0),
        processing_time := some (ocr.processing_time.getD 0),
        metadata := some (ReportMetadata.summary es (ocr.pages.getD 1)),
        status := ReportStatus.completed }) (fun _ => rfl)
  rw [h] at hu
  simp only [stageResults]
  rw [hu]
  rfl

/-- C2 helper, the COMPLETED side: any run that ends with a COMPLETED
row for the report has staged the full result — non-null confidence and
processing time, and one entity row per item the Entity Engine
reported (the isinstance filter drops nothing by the engine contract
that every item is a dict). -/
theorem c2_completed_aux (E : EntityService) (C : CryptoPrims)
    (rid : Nat) (ocr : OcrResult) (fp : FaultPoint) (s : DbSession)
    (hclean : s.pending = s.committed)
    (hents : s.pending.entitiesFor rid = [])
    (hdict : ∀ p ∈ E.extract_entities ocr.text, ∀ it ∈ p.2, EntityItem.isDict it = true) :
    ∀ r, findReport (process_document_background E C rid ocr fp s).committed rid = some r →
      r.status = ReportStatus.completed →
      r.confidence_score ≠ none ∧ r.processing_time ≠ none ∧
      ((process_document_background E C rid ocr fp s).committed.entitiesFor rid).length =
        itemCount (E.extract_entities ocr.text) := by
  intro r hr hcomp
  cases hfind : findReport s.pending rid with
  | none =>
    simp only [process_document_background, hfind] at hr
    rw [← hclean, hfind] at hr
    exact Option.noConfusion hr
  | some r0 =>
    simp only [process_document_background, hfind] at hr ⊢
    have hprocne : findReport (markProcessing rid s).pending rid ≠ none := by
      rw [markProcessing_find rid s r0 hfind]
      simp
    by_cases h1 : fp = FaultPoint.ocrCall
    · rw [if_pos h1] at hr
      have hfail := failHandler_failed rid "ocr exception" (markProcessing rid s) hprocne r hr
      rw [hfail] at hcomp
      exact absurd hcomp (by decide)
    rw [if_neg h1] at hr ⊢
    by_cases h2 : ocr.success = true
    case neg =>
      rw [if_pos h2] at hr
      have hfail := find_failed_update (markProcessing rid s).pending rid
        (fun r1 => { r1 with status := ReportStatus.failed,
                             metadata := some (ReportMetadata.errorMsg (ocr.error.getD "OCR failed")) })
        (fun _ => rfl) (fun _ => rfl) hprocne r hr
      rw [hfail] at hcomp
      exact absurd hcomp (by decide)
    rw [if_neg (not_not_intro h2)] at hr ⊢
    by_cases h3 : fp = FaultPoint.extract
    · rw [if_pos h3] at hr
      have hfail := failHandler_failed rid "extract exception" (markProcessing rid s)
        hprocne r hr
      rw [hfail] at hcomp
      exact absurd hcomp (by decide)
    rw [if_neg h3] at hr ⊢
    by_cases h4 : fp = FaultPoint.summary
    · rw [if_pos h4] at hr
      have hfail := failHandler_failed rid "summary exception" (markProcessing rid s)
        hprocne r hr
      rw [hfail] at hcomp
      exact absurd hcomp (by decide)
    rw [if_neg h4] at hr ⊢
    by_cases h5 : fp = FaultPoint.encryptText
    · rw [if_pos h5] at hr
      have hfail := failHandler_failed rid "encrypt exception" (markProcessing rid s)
        hprocne r hr
      rw [hfail] at hcomp
      exact absurd hcomp (by decide)
    rw [if_neg h5] at hr ⊢
    cases hstage : stageEntities E rid (faultIndex fp) (E.extract_entities ocr.text) 0
        (stageResults C rid ocr (E.get_entity_summary (E.extract_entities ocr.text))
          (markProcessing rid s).pending) with
    | error pend2 =>
      simp only [hstage] at hr
      have hrep := stageEntities_error_reports E rid (faultIndex fp)
        (E.extract_entities ocr.text) 0 _ pend2 hstage
      have hne2 : findReport pend2 rid ≠ none := by
        rw [findReport_congr pend2 _ rid hrep,
          stageResults_find C rid ocr (E.get_entity_summary (E.extract_entities ocr.text))
            (markProcessing rid s).pending _ (markProcessing_find rid s r0 hfind)]
        simp
      have hfail := failHandler_failed rid "normalize exception" _ hne2 r hr
      rw [hfail] at hcomp
      exact absurd hcomp (by decide)
    | ok kdb =>
      simp only [hstage] at hr ⊢
      by_cases h7 : fp = FaultPoint.commitFinal
      · rw [if_pos h7] at hr
        have hfail := failHandler_failed rid "commit failed"
          (DbSession.commitFail { markProcessing rid s with pending := kdb.2 })
          hprocne r hr
        rw [hfail] at hcomp
        exact absurd hcomp (by decide)
      · rw [if_neg h7] at hr ⊢
        have hspec := stageEntities_ok_spec E rid (faultIndex fp)
          (E.extract_entities ocr.text) 0 _ kdb.1 kdb.2 (by rw [hstage])
        have hsr := stageResults_find C rid ocr
          (E.get_entity_summary (E.extract_entities ocr.text))
          (markProcessing rid s).pending _ (markProcessing_find rid s r0 hfind)
        have hr2 : findReport kdb.2 rid = some r := hr
        rw [findReport_congr kdb.2 _ rid hspec.2, hsr] at hr2
        injection hr2 with hr3
        subst hr3
        refine ⟨by simp, by simp, ?_⟩
        show (kdb.2.entitiesFor rid).length = itemCount (E.extract_entities ocr.text)
        rw [hspec.1]
        have hze : ((stageResults C rid ocr
            (E.get_entity_summary (E.extract_entities ocr.text))
            (markProcessing rid s).pending).entitiesFor rid) =
            ([] : List ExtractedEntity) := hents
        rw [hze]
        simp only [List.length_nil, Nat.zero_add]
        exact dictCount_eq_itemCount _ hdict

/-- C2 helper, the rollback side: when the final commit that persists
the entity rows fails after COMPLETED was staged, the run ends with the
row FAILED, not COMPLETED. -/
theorem c2_rollback_aux (E : EntityService) (C : CryptoPrims) (rid : Nat)
    (ocr : OcrResult) (s : DbSession)
    (hne : findReport s.pending rid ≠ none) (hsucc : ocr.success = true) :
    ∀ r, findReport
        (process_document_background E C rid ocr FaultPoint.commitFinal s).committed
        rid = some r → r.status = ReportStatus.failed := by
  intro r hr
  cases hfind : findReport s.pending rid with
  | none => exact absurd hfind hne
  | some r0 =>
    simp only [process_document_background, hfind] at hr
    rw [if_neg (show ¬ FaultPoint.commitFinal = FaultPoint.ocrCall by decide)] at hr
    rw [if_neg (not_not_intro hsucc)] at hr
    rw [if_neg (show ¬ FaultPoint.commitFinal = FaultPoint.extract by decide)] at hr
    rw [if_neg (show ¬ FaultPoint.commitFinal = FaultPoint.summary by decide)] at hr
    rw [if_neg (show ¬ FaultPoint.commitFinal = FaultPoint.encryptText by decide)] at hr
    rw [show faultIndex FaultPoint.commitFinal = none from rfl] at hr
    obtain ⟨k2, db2, hstage⟩ := stageEntities_none_ok E rid (E.extract_entities ocr.text) 0
      (stageResults C rid ocr (E.get_entity_summary (E.extract_entities ocr.text))
        (markProcessing rid s).pending)
    simp only [hstage] at hr
    rw [if_pos trivial] at hr
    have hprocne : findReport (markProcessing rid s).pending rid ≠ none := by
      rw [markProcessing_find rid s r0 hfind]
      simp
    exact failHandler_failed rid "commit failed" _ hprocne r hr

/-- C2: a run that ends with the Document COMPLETED has non-null
confidence and processing time and exactly as many persisted Entity
rows for it as the Entity Engine reported items for that run (given the
engine contract that every reported item is a dict and that the
Document starts with no entity rows); and when the final commit that
persists the entity rows fails after COMPLETED was staged, the run ends
with the Document FAILED rather than COMPLETED with zero entities. -/
theorem completed_run_consistent (E : EntityService) (C : CryptoPrims)
    (rid : Nat) (ocr : OcrResult) (fp : FaultPoint) (s : DbSession)
    (hclean : s.pending = s.committed)
    (hents : s.pending.entitiesFor rid = [])
    (hdict : ∀ p ∈ E.extract_entities ocr.text, ∀ it ∈ p.2, EntityItem.isDict it = true) :
    (∀ r, findReport (process_document_background E C rid ocr fp s).committed rid = some r →
      r.status = ReportStatus.completed →
      r.confidence_score ≠ none ∧ r.processing_time ≠ none ∧
      ((process_document_background E C rid ocr fp s).committed.entitiesFor rid).length =
        itemCount (E.extract_entities ocr.text)) ∧
    (fp = FaultPoint.commitFinal → ocr.success = true → findReport s.pending rid ≠ none →
      ∀ r, findReport (process_document_background E C rid ocr fp s).committed rid = some r →
        r.status = ReportStatus.failed) := by
  constructor
  · exact c2_completed_aux E C rid ocr fp s hclean hents hdict
  · intro hfp hsucc hne
    subst hfp
    exact c2_rollback_aux E C rid ocr s hne hsucc

/-- C2 witness: the clean success run over the sample store ends
COMPLETED with exactly the two entity rows the concrete engine
reported. -/
theorem completed_run_consistent_witness :
    ((process_document_background refEntityService refPrims 1 sampleOcr FaultPoint.noFault
        sampleSession).committed.entitiesFor 1).length =
      itemCount (refEntityService.extract_entities sampleOcr.text) ∧
    itemCount (refEntityService.extract_entities sampleOcr.text) = 2 := by
  have h := (completed_run_consistent refEntityService refPrims 1 sampleOcr
    FaultPoint.noFault sampleSession rfl rfl (by decide)).1
  exact ⟨(h _ rfl rfl).2.2, rfl⟩

end MedInsight
